import Mathlib

/-!
Shallow embedding of the credential authentication and lockout engine of
`Assignment-5/secure_login_system.py` (class `LoginSystem`).

Modelling choices:
* Python byte strings (`str.encode('utf-8')`) are `List Nat`; UTF-8 encoding is
  injective, so list concatenation models `f"{password}{pepper}"` faithfully.
* `bcrypt` is an external library; we embed its documented interface: `hashpw`
  embeds work factor, salt and digest in a self-describing stored value,
  `checkpw` re-derives the digest from the embedded parameters and compares,
  raising `ValueError` on a malformed stored value.  The key-derivation core is
  idealized as collision-free (injective in its input for a fixed salt and work
  factor), which is the standard ideal-hash reading of the spec.
* Randomness (salt generation, `secrets.token_hex`) is passed in explicitly.
* Timestamps are `Nat` seconds; `datetime.now()` is an explicit `now` argument.
* Database state for one username is `Option Account`; each operation returns
  the updated record, modelling the SQL `UPDATE`/`INSERT` statements.
* Every bcrypt key derivation performed by a call is recorded (its work
  factor, in order) so that cost/timing behaviour is visible to theorems.
-/

/-- Byte strings. -/
abbrev Bytes := List Nat

/-- `f"{password}{pepper}".encode('utf-8')`: concatenation of the two byte
strings. -/
def pepperedBytes (password pepper : Bytes) : Bytes :=
  password ++ pepper

/-- The self-describing content of a bcrypt hash: work factor, salt and
digest (`hashpw` output embeds all three). -/
structure BcryptHash where
  work : Nat
  salt : Nat
  digest : Bytes
deriving DecidableEq

/-- The bcrypt key-derivation core, idealized as collision-free: for a fixed
salt and work factor it is injective in the input data. -/
def bcryptKDF (data : Bytes) (_salt : Nat) (_work : Nat) : Bytes :=
  data

/-- Serialize a bcrypt hash record into the opaque stored byte string. -/
def encodeBcrypt (h : BcryptHash) : Bytes :=
  h.work :: h.salt :: h.digest

/-- Parse a stored byte string back into its bcrypt components; `none` models
a malformed stored hash (on which `bcrypt.checkpw` raises `ValueError`). -/
def decodeBcrypt : Bytes → Option BcryptHash
  | work :: salt :: digest => some ⟨work, salt, digest⟩
  | _ => none

/-- `bcrypt.hashpw(data, salt)` with the given work factor: derive the digest
and emit the self-describing stored value. -/
def bcrypt_hashpw (data : Bytes) (salt : Nat) (work : Nat) : Bytes :=
  encodeBcrypt ⟨work, salt, bcryptKDF data salt work⟩

/-- `bcrypt.checkpw(data, stored)`: re-derive using the embedded salt and work
factor and compare; `Except.error ()` models the `ValueError` raised on a
malformed stored value. -/
def bcrypt_checkpw (data : Bytes) (stored : Bytes) : Except Unit Bool :=
  match decodeBcrypt stored with
  | none => .error ()
  | some h => .ok (bcryptKDF data h.salt h.work == h.digest)

/-- The bcrypt derivations (work factors) performed by one `checkpw` call:
none when the stored value is malformed (it fails before deriving), one at
the embedded work factor otherwise. -/
def checkpwOps (stored : Bytes) : List Nat :=
  match decodeBcrypt stored with
  | none => []
  | some h => [h.work]

/-- The configuration of a `LoginSystem` instance (`__init__`):
`max_attempts = 3`, `lockout_duration = 15 min`, `min_password_length = 12`,
and the process-wide pepper. -/
structure Config where
  max_attempts : Nat
  lockout_duration : Nat
  min_password_length : Nat
  pepper : Bytes
deriving DecidableEq

/-- `self.pepper = os.getenv('PASSWORD_PEPPER', secrets.token_hex(32))`:
use the environment value when present, otherwise a freshly generated random
value (`fresh`). -/
def initPepper (env : Option Bytes) (fresh : Bytes) : Bytes :=
  env.getD fresh

/-- One row of the `users` table (the fields the logic reads or writes). -/
structure Account where
  password_hash : Bytes
  failed_attempts : Nat
  last_attempt_time : Option Nat
  locked_until : Option Nat
  last_login : Option Nat
deriving DecidableEq

namespace LoginSystem

/-- `LoginSystem._hash_password`: pepper the password, generate a salt and
hash with bcrypt at work factor 12. -/
def hash_password (cfg : Config) (password : Bytes) (salt : Nat) : Bytes :=
  bcrypt_hashpw (pepperedBytes password cfg.pepper) salt 12

/-- `LoginSystem._verify_password`: pepper the password and call
`bcrypt.checkpw`, returning `False` when it raises `ValueError`. -/
def verify_password (cfg : Config) (password : Bytes) (hashed : Bytes) : Bool :=
  match bcrypt_checkpw (pepperedBytes password cfg.pepper) hashed with
  | .error _ => false
  | .ok b => b

end LoginSystem

/-- `re.search(r'[A-Z]', ...)` on one byte. -/
def isUpperByte (c : Nat) : Bool :=
  decide (65 ≤ c ∧ c ≤ 90)

/-- `re.search(r'[a-z]', ...)` on one byte. -/
def isLowerByte (c : Nat) : Bool :=
  decide (97 ≤ c ∧ c ≤ 122)

/-- `re.search(r'[0-9]', ...)` on one byte. -/
def isDigitByte (c : Nat) : Bool :=
  decide (48 ≤ c ∧ c ≤ 57)

/-- The special-character class of the source regex. -/
def specialBytes : Bytes :=
  [33, 64, 35, 36, 37, 94, 38, 42, 40, 41, 44, 46, 63, 34, 58, 123, 125, 124, 60, 62]

/-- Membership in the special-character class. -/
def isSpecialByte (c : Nat) : Bool :=
  specialBytes.contains c

/-- `str.lower` on one byte. -/
def lowerByte (c : Nat) : Nat :=
  if 65 ≤ c ∧ c ≤ 90 then c + 32 else c

/-- `pat` is a prefix of `s`. -/
def bytesStart : Bytes → Bytes → Bool
  | [], _ => true
  | _ :: _, [] => false
  | p :: ps, s :: ss => p == s && bytesStart ps ss

/-- Python substring containment (`pat in s`). -/
def hasSub (pat : Bytes) : Bytes → Bool
  | [] => pat == []
  | c :: rest => bytesStart pat (c :: rest) || hasSub pat rest

/-- The deny-list of the source: `password`, `123`, `qwerty`, `admin`
(as UTF-8 bytes). -/
def bannedPatterns : List Bytes :=
  [[112, 97, 115, 115, 119, 111, 114, 100],
   [49, 50, 51],
   [113, 119, 101, 114, 116, 121],
   [97, 100, 109, 105, 110]]

/-- The reasons `_validate_password_strength` can fail with, in source
order. -/
inductive ValidationError where
  | tooShort
  | missingUppercase
  | missingLowercase
  | missingDigit
  | missingSpecial
  | bannedPattern
deriving DecidableEq

/-- Errors of `LoginSystem.register`, one per distinct failure return. -/
inductive RegisterError where
  | invalidUsername
  | weakPassword (reason : ValidationError)
  | usernameTaken
  | systemError
deriving DecidableEq

/-- Results of `LoginSystem.login`.  `accountLocked` carries the seconds the
lock message is computed from: the remaining lock time on the admission path,
the full `lockout_duration` on the newly-locked path. -/
inductive LoginResult where
  | ok
  | invalidCredentials
  | accountLocked (seconds : Nat)
  | systemError
deriving DecidableEq

/-- Result of `_is_account_locked`: the returned flag, the seconds the lock
message is computed from, and the (possibly lazily reset) stored record. -/
structure LockStatus where
  is_locked : Bool
  remaining : Option Nat
  account : Option Account
deriving DecidableEq

/-- Result of `login`: the returned value, the stored record after the call,
and the work factors of the bcrypt derivations the call performed. -/
structure LoginOut where
  result : LoginResult
  account : Option Account
  bcryptOps : List Nat
deriving DecidableEq

namespace LoginSystem

/-- `LoginSystem._validate_password_strength`: the first failing check in
source order (length, uppercase, lowercase, digit, special, banned
patterns), or `none` on success. -/
def validate_password_strength (cfg : Config) (password : Bytes) :
    Option ValidationError :=
  if password.length < cfg.min_password_length then some .tooShort
  else if !password.any isUpperByte then some .missingUppercase
  else if !password.any isLowerByte then some .missingLowercase
  else if !password.any isDigitByte then some .missingDigit
  else if !password.any isSpecialByte then some .missingSpecial
  else if bannedPatterns.any (fun pat => hasSub pat (password.map lowerByte)) then
    some .bannedPattern
  else none

/-- A byte allowed by the username regex `^[a-zA-Z0-9_-]+$`. -/
def usernameByte (c : Nat) : Bool :=
  isUpperByte c || isLowerByte c || isDigitByte c || c == 95 || c == 45

/-- `LoginSystem.register` for one username: `existing` is the stored record
under that username (`some` makes the `INSERT` hit the UNIQUE constraint).
On success the new row has `failed_attempts = 0` and no lock. -/
def register (cfg : Config) (existing : Option Account)
    (username password : Bytes) (salt : Nat) : Except RegisterError Account :=
  if username.length < 3 then .error .invalidUsername
  else if !username.all usernameByte then .error .invalidUsername
  else
    match validate_password_strength cfg password with
    | some reason => .error (.weakPassword reason)
    | none =>
      match existing with
      | some _ => .error .usernameTaken
      | none => .ok ⟨hash_password cfg password salt, 0, none, none, none⟩

/-- `LoginSystem._is_account_locked`: locked while `now < locked_until`; an
expired lock is lazily reset (`failed_attempts = 0`, `locked_until = NULL`)
in the stored record; otherwise the record is untouched. -/
def is_account_locked (acc0 : Option Account) (now : Nat) : LockStatus :=
  match acc0 with
  | none => ⟨false, none, none⟩
  | some acc =>
    match acc.locked_until with
    | some t =>
      if now < t then ⟨true, some (t - now), some acc⟩
      else ⟨false, none, some { acc with failed_attempts := 0, locked_until := none }⟩
    | none => ⟨false, none, some acc⟩

/-- The body of `LoginSystem.login` after the admission check (source lines
147–191): re-read the row (a missing row costs one dummy bcrypt derivation
at the default work factor 12), verify the password, then success-reset or
failure bookkeeping with a lock once the new count reaches `max_attempts`. -/
def login_attempt (cfg : Config) (acc1 : Option Account) (password : Bytes)
    (now : Nat) : LoginOut :=
  match acc1 with
  | none => ⟨.invalidCredentials, none, [12]⟩
  | some acc =>
    let ops := checkpwOps acc.password_hash
    if verify_password cfg password acc.password_hash then
      ⟨.ok,
       some { acc with failed_attempts := 0, locked_until := none,
                       last_login := some now },
       ops⟩
    else
      let nfa := acc.failed_attempts + 1
      if cfg.max_attempts ≤ nfa then
        ⟨.accountLocked cfg.lockout_duration,
         some { acc with failed_attempts := nfa,
                         locked_until := some (now + cfg.lockout_duration) },
         ops⟩
      else
        ⟨.invalidCredentials,
         some { acc with failed_attempts := nfa, last_attempt_time := some now },
         ops⟩

/-- `LoginSystem.login` for one username: admission check first (returning
the lock message without touching bcrypt), then the lookup-and-verify body
on the (possibly lazily reset) row. -/
def login (cfg : Config) (acc0 : Option Account) (password : Bytes)
    (now : Nat) : LoginOut :=
  let ls := is_account_locked acc0 now
  if ls.is_locked then
    ⟨.accountLocked (ls.remaining.getD 0), ls.account, []⟩
  else
    login_attempt cfg ls.account password now

end LoginSystem

/-- The configuration the source constructor builds (`max_attempts = 3`,
`lockout_duration` = 15 minutes in seconds, `min_password_length = 12`), with
a sample pepper byte, used to evaluate the theorems on concrete inputs. -/
def sampleConfig : Config :=
  ⟨3, 900, 12, [107]⟩

/-- Round-trip: decoding an issued bcrypt value recovers its components. -/
theorem decode_encode (h : BcryptHash) : decodeBcrypt (encodeBcrypt h) = some h := by
  cases h
  rfl

/-- Verifying any candidate against an issued hash compares the two peppered
byte strings. -/
theorem verify_hash_password (cfg : Config) (p q : Bytes) (salt : Nat) :
    LoginSystem.verify_password cfg q (LoginSystem.hash_password cfg p salt)
      = (pepperedBytes q cfg.pepper == pepperedBytes p cfg.pepper) := by
  simp [LoginSystem.verify_password, LoginSystem.hash_password, bcrypt_hashpw,
    bcrypt_checkpw, decode_encode, bcryptKDF]

/-- A wrong password never verifies against an issued hash. -/
theorem verify_of_ne (cfg : Config) (p q : Bytes) (salt : Nat) (h : q ≠ p) :
    LoginSystem.verify_password cfg q (LoginSystem.hash_password cfg p salt) = false := by
  rw [verify_hash_password]
  simp only [beq_eq_false_iff_ne, ne_eq, pepperedBytes]
  intro hpk
  exact h (List.append_cancel_right hpk)

/-- An issued hash decodes, and one `checkpw` on it costs one derivation at
work factor 12. -/
theorem checkpwOps_hash_password (cfg : Config) (p : Bytes) (salt : Nat) :
    checkpwOps (LoginSystem.hash_password cfg p salt) = [12] := by
  simp [checkpwOps, LoginSystem.hash_password, bcrypt_hashpw, decode_encode]

/-- C1: for every configuration (hence every pepper), every password and
every salt, verifying a password against the hash `_hash_password` produced
for it under the same pepper succeeds: `_verify_password` returns `true`. -/
theorem C1_verify_roundtrip (cfg : Config) (p : Bytes) (salt : Nat) :
    LoginSystem.verify_password cfg p (LoginSystem.hash_password cfg p salt) = true := by
  rw [verify_hash_password]
  exact beq_self_eq_true _

/-- C4: for every pepper and every pair of distinct passwords, verifying the
second against the hash issued for the first fails (`_verify_password`
returns `false`); the bcrypt digest is idealized as collision-free. -/
theorem C4_verify_distinct (cfg : Config) (p1 p2 : Bytes) (salt : Nat)
    (h : p1 ≠ p2) :
    LoginSystem.verify_password cfg p2 (LoginSystem.hash_password cfg p1 salt) = false :=
  verify_of_ne cfg p1 p2 salt (fun hp => h hp.symm)

/-- Witness for C4 at a concrete input. -/
theorem C4_verify_distinct_witness :
    ([1] : Bytes) ≠ [2] ∧
      LoginSystem.verify_password sampleConfig [2]
        (LoginSystem.hash_password sampleConfig [1] 0) = false :=
  ⟨by decide, C4_verify_distinct sampleConfig [1] [2] 0 (by decide)⟩

/-- C10: on a malformed stored hash, `bcrypt.checkpw` raises (`ValueError`,
modelled as `Except.error`) and `_verify_password` catches it and returns
`false` — it never propagates the exception, for every password and pepper. -/
theorem C10_malformed_hash_false (cfg : Config) (p stored : Bytes)
    (h : decodeBcrypt stored = none) :
    bcrypt_checkpw (pepperedBytes p cfg.pepper) stored = .error () ∧
      LoginSystem.verify_password cfg p stored = false := by
  constructor
  · simp [bcrypt_checkpw, h]
  · simp [LoginSystem.verify_password, bcrypt_checkpw, h]

/-- Witness for C10 at a concrete malformed stored hash. -/
theorem C10_malformed_hash_false_witness :
    decodeBcrypt [] = none ∧
      (bcrypt_checkpw (pepperedBytes [3] sampleConfig.pepper) [] = .error () ∧
        LoginSystem.verify_password sampleConfig [3] [] = false) :=
  ⟨rfl, C10_malformed_hash_false sampleConfig [3] [] rfl⟩

/-- C8: evaluation of the code at the failing configuration.  With no
`PASSWORD_PEPPER` in the environment, `__init__` falls back to a fresh
`secrets.token_hex(32)` per instance; two instances then hold different
peppers and a hash issued by the first does not verify under the second,
even for the correct password. -/
theorem C8_pepper_regenerated_breaks_verify :
    LoginSystem.verify_password ⟨3, 900, 12, initPepper none [1]⟩ [5]
      (LoginSystem.hash_password ⟨3, 900, 12, initPepper none [0]⟩ [5] 0) = false := by
  decide

/-- C6: a login on an account locked until a future instant returns the lock
result carrying the remaining time, leaves the stored record exactly as it
was (`failed_attempts` and `locked_until` untouched), and performs no bcrypt
operation — in particular password verification is never attempted. -/
theorem C6_locked_login_unchanged (cfg : Config) (acc : Account) (p : Bytes)
    (now t : Nat) (hl : acc.locked_until = some t) (hnow : now < t) :
    LoginSystem.login cfg (some acc) p now
      = ⟨.accountLocked (t - now), some acc, []⟩ := by
  simp [LoginSystem.login, LoginSystem.is_account_locked, hl, hnow]

/-- A freshly registered sample account: the issued hash of password `[1]`,
no failures, no lock. -/
def freshAcc : Account :=
  ⟨LoginSystem.hash_password sampleConfig [1] 0, 0, none, none, none⟩

/-- A sample account whose lockout (until instant 100) has already expired
at instant 100. -/
def expiredAcc : Account :=
  ⟨LoginSystem.hash_password sampleConfig [1] 0, 3, none, some 100, none⟩

/-- C3: on an account locked until `t` with `t ≤ now`, the admission check
lazily resets the stored record to `failed_attempts = 0`, `locked_until =
NULL` and reports it unlocked; a login with the correct password at that
instant then succeeds and persists a record with `failed_attempts = 0` and
no `locked_until`. -/
theorem C3_lazy_expiry_reset (cfg : Config) (acc : Account) (p : Bytes)
    (now t : Nat) (hl : acc.locked_until = some t) (hexp : t ≤ now)
    (hok : LoginSystem.verify_password cfg p acc.password_hash = true) :
    LoginSystem.is_account_locked (some acc) now
      = ⟨false, none, some { acc with failed_attempts := 0, locked_until := none }⟩ ∧
    LoginSystem.login cfg (some acc) p now
      = ⟨.ok,
         some { acc with failed_attempts := 0, locked_until := none,
                         last_login := some now },
         checkpwOps acc.password_hash⟩ := by
  have hnot : ¬ now < t := by omega
  refine ⟨?_, ?_⟩ <;>
    simp [LoginSystem.is_account_locked, LoginSystem.login,
      LoginSystem.login_attempt, hl, hnot, hok]

/-- Witness for C3 at a concrete expired lock. -/
theorem C3_lazy_expiry_reset_witness :
    LoginSystem.is_account_locked (some expiredAcc) 100
      = ⟨false, none, some { expiredAcc with failed_attempts := 0, locked_until := none }⟩ ∧
    LoginSystem.login sampleConfig (some expiredAcc) [1] 100
      = ⟨.ok,
         some { expiredAcc with failed_attempts := 0, locked_until := none,
                                last_login := some 100 },
         checkpwOps expiredAcc.password_hash⟩ :=
  C3_lazy_expiry_reset sampleConfig expiredAcc [1] 100 100 rfl (by decide) (by decide)

/-- C7: a login for a missing row and a login with a wrong password against
an active existing row (holding an issued hash) both return
`invalidCredentials`, and both perform exactly the same bcrypt work (one
derivation at work factor 12 — the dummy hash against one real check), so
neither the result nor the hashing cost distinguishes the two paths. -/
theorem C7_unknown_user_indistinguishable (cfg : Config) (acc : Account)
    (p q : Bytes) (salt now : Nat)
    (hhash : acc.password_hash = LoginSystem.hash_password cfg p salt)
    (hactive : acc.locked_until = none)
    (hlt : acc.failed_attempts + 1 < cfg.max_attempts)
    (hne : q ≠ p) :
    (LoginSystem.login cfg none q now).result = .invalidCredentials ∧
    (LoginSystem.login cfg (some acc) q now).result = .invalidCredentials ∧
    (LoginSystem.login cfg none q now).bcryptOps
      = (LoginSystem.login cfg (some acc) q now).bcryptOps := by
  have hv : LoginSystem.verify_password cfg q acc.password_hash = false := by
    rw [hhash]
    exact verify_of_ne cfg p q salt hne
  have hops : checkpwOps acc.password_hash = [12] := by
    rw [hhash]
    exact checkpwOps_hash_password cfg p salt
  have hnot : ¬ cfg.max_attempts ≤ acc.failed_attempts + 1 := by omega
  refine ⟨rfl, ?_, ?_⟩ <;>
    simp [LoginSystem.login, LoginSystem.login_attempt,
      LoginSystem.is_account_locked, hactive, hv, hops, hnot]

/-- Witness for C7 at a concrete missing row versus wrong password. -/
theorem C7_unknown_user_indistinguishable_witness :
    (LoginSystem.login sampleConfig none [2] 0).result = .invalidCredentials ∧
    (LoginSystem.login sampleConfig (some freshAcc) [2] 0).result = .invalidCredentials ∧
    (LoginSystem.login sampleConfig none [2] 0).bcryptOps
      = (LoginSystem.login sampleConfig (some freshAcc) [2] 0).bcryptOps :=
  C7_unknown_user_indistinguishable sampleConfig freshAcc [1] [2] 0 0 rfl rfl
    (by decide) (by decide)

/-- `k` consecutive calls to `login` with the same (wrong) password at the
same instant, threading the stored record through. -/
def iterateFailedLogin (cfg : Config) (q : Bytes) (now : Nat) :
    Nat → Option Account → Option Account
  | 0, a => a
  | k + 1, a =>
    (LoginSystem.login cfg (iterateFailedLogin cfg q now k a) q now).account

/-- The stored record after `k < max_attempts` consecutive failures starting
from a fresh active account: `failed_attempts = k`, still unlocked. -/
theorem iterateFailedLogin_lt (cfg : Config) (acc : Account) (q : Bytes)
    (now : Nat) (hactive : acc.locked_until = none)
    (hfa : acc.failed_attempts = 0)
    (hwrong : LoginSystem.verify_password cfg q acc.password_hash = false) :
    ∀ k, k < cfg.max_attempts →
      iterateFailedLogin cfg q now k (some acc)
        = some { acc with
                 failed_attempts := k,
                 last_attempt_time :=
                   if k = 0 then acc.last_attempt_time else some now } := by
  obtain ⟨ph, fa, lat, lu, ll⟩ := acc
  simp only at hactive hfa hwrong
  subst hactive hfa
  intro k
  induction k with
  | zero => intro _; simp [iterateFailedLogin]
  | succ k ih =>
    intro hk
    have hk' : k < cfg.max_attempts := by omega
    have hle : ¬ cfg.max_attempts ≤ k + 1 := by omega
    simp only [iterateFailedLogin, ih hk']
    simp [LoginSystem.login, LoginSystem.login_attempt,
      LoginSystem.is_account_locked, hwrong, hle]

/-- C2: starting from a fresh active account, each failed login increments
`failed_attempts` and returns `invalidCredentials` while the count stays
below `max_attempts`; the `max_attempts`-th failure is the one that locks,
returning the lock result and persisting `failed_attempts = max_attempts`
with `locked_until = now + lockout_duration`; after `max_attempts - 1`
failures the account is still unlocked. -/
theorem C2_lockout_at_max_attempts (cfg : Config) (acc : Account) (q : Bytes)
    (now : Nat) (hmax : 0 < cfg.max_attempts)
    (hactive : acc.locked_until = none) (hfa : acc.failed_attempts = 0)
    (hwrong : LoginSystem.verify_password cfg q acc.password_hash = false) :
    (∀ k, k < cfg.max_attempts →
        ∃ a, iterateFailedLogin cfg q now k (some acc) = some a ∧
          a.failed_attempts = k ∧ a.locked_until = none) ∧
    (∀ k, k + 1 < cfg.max_attempts →
        (LoginSystem.login cfg (iterateFailedLogin cfg q now k (some acc))
            q now).result = .invalidCredentials) ∧
    (LoginSystem.login cfg
        (iterateFailedLogin cfg q now (cfg.max_attempts - 1) (some acc))
        q now).result = .accountLocked cfg.lockout_duration ∧
    (∃ a, iterateFailedLogin cfg q now cfg.max_attempts (some acc) = some a ∧
        a.failed_attempts = cfg.max_attempts ∧
        a.locked_until = some (now + cfg.lockout_duration)) := by
  have hiter := iterateFailedLogin_lt cfg acc q now hactive hfa hwrong
  obtain ⟨ph, fa, lat, lu, ll⟩ := acc
  simp only at hactive hfa hwrong
  subst hactive hfa
  obtain ⟨M, hM⟩ : ∃ M, cfg.max_attempts = M + 1 :=
    ⟨cfg.max_attempts - 1, by omega⟩
  refine ⟨?_, ?_, ?_, ?_⟩
  · intro k hk
    exact ⟨_, hiter k hk, rfl, rfl⟩
  · intro k hk
    have hle : ¬ cfg.max_attempts ≤ k + 1 := by omega
    rw [hiter k (by omega)]
    simp [LoginSystem.login, LoginSystem.login_attempt,
      LoginSystem.is_account_locked, hwrong, hle]
  · have hM1 : cfg.max_attempts - 1 = M := by omega
    rw [hM1, hiter M (by omega)]
    have hge : cfg.max_attempts ≤ M + 1 := by omega
    simp [LoginSystem.login, LoginSystem.login_attempt,
      LoginSystem.is_account_locked, hwrong, hge]
  · rw [hM]
    simp only [iterateFailedLogin, hiter M (by omega)]
    have hge : cfg.max_attempts ≤ M + 1 := by omega
    simp [LoginSystem.login, LoginSystem.login_attempt,
      LoginSystem.is_account_locked, hwrong, hge, hM]

/-- Witness for C2: with the source constants (`max_attempts = 3`), the
third consecutive failure locks the fresh sample account until `0 + 900`. -/
theorem C2_lockout_at_max_attempts_witness :
    (LoginSystem.login sampleConfig
        (iterateFailedLogin sampleConfig [2] 0 2 (some freshAcc)) [2] 0).result
      = .accountLocked 900 ∧
    (∃ a, iterateFailedLogin sampleConfig [2] 0 3 (some freshAcc) = some a ∧
        a.failed_attempts = 3 ∧ a.locked_until = some 900) :=
  ⟨(C2_lockout_at_max_attempts sampleConfig freshAcc [2] 0 (by decide) rfl rfl
      (by decide)).2.2.1,
   (C2_lockout_at_max_attempts sampleConfig freshAcc [2] 0 (by decide) rfl rfl
      (by decide)).2.2.2⟩

/-- The account invariants the spec states: `0 ≤ failed_attempts ≤
max_attempts` (the lower bound is inherent to `Nat`), and a set
`locked_until` implies `failed_attempts ≥ max_attempts`. -/
def AccountInvariant (cfg : Config) (a : Account) : Prop :=
  a.failed_attempts ≤ cfg.max_attempts ∧
    ∀ t, a.locked_until = some t → cfg.max_attempts ≤ a.failed_attempts

/-- The inductive strengthening the operations actually maintain: unlocked
rows stay strictly below `max_attempts` and locked rows sit exactly at it. -/
def StrictLockState (cfg : Config) (a : Account) : Prop :=
  (a.locked_until = none → a.failed_attempts < cfg.max_attempts) ∧
    ∀ t, a.locked_until = some t → a.failed_attempts = cfg.max_attempts

/-- The strengthened state implies the spec's invariants. -/
theorem strict_imp_invariant (cfg : Config) (a : Account)
    (h : StrictLockState cfg a) : AccountInvariant cfg a := by
  obtain ⟨h1, h2⟩ := h
  constructor
  · cases hl : a.locked_until with
    | none => exact Nat.le_of_lt (h1 hl)
    | some t => exact Nat.le_of_eq (h2 t hl)
  · intro t ht
    exact Nat.le_of_eq (h2 t ht).symm

/-- A successful `register` produces a row in the strengthened state. -/
theorem register_strict (cfg : Config) (hmax : 0 < cfg.max_attempts)
    (existing : Option Account) (username password : Bytes) (salt : Nat)
    (a : Account)
    (ha : LoginSystem.register cfg existing username password salt = .ok a) :
    StrictLockState cfg a := by
  unfold LoginSystem.register at ha
  split at ha
  · simp at ha
  · split at ha
    · simp at ha
    · split at ha
      · simp at ha
      · split at ha
        · simp at ha
        · simp only [Except.ok.injEq] at ha
          subst ha
          exact ⟨fun _ => hmax, fun t ht => by simp at ht⟩

/-- `_is_account_locked` keeps the row in the strengthened state. -/
theorem lock_check_strict (cfg : Config) (hmax : 0 < cfg.max_attempts)
    (acc : Account) (now : Nat) (hs : StrictLockState cfg acc) (a : Account)
    (ha : (LoginSystem.is_account_locked (some acc) now).account = some a) :
    StrictLockState cfg a := by
  obtain ⟨ph, fa, lat, lu, ll⟩ := acc
  rcases lu with _ | t
  · simp only [LoginSystem.is_account_locked, Option.some.injEq] at ha
    subst ha
    exact hs
  · rcases Nat.lt_or_ge now t with hnow | hnow
    · simp only [LoginSystem.is_account_locked, if_pos hnow,
        Option.some.injEq] at ha
      subst ha
      exact hs
    · have hn : ¬ now < t := by omega
      simp only [LoginSystem.is_account_locked, if_neg hn,
        Option.some.injEq] at ha
      subst ha
      exact ⟨fun _ => hmax, fun u hu => by simp at hu⟩

/-- The post-admission body keeps an admitted row (unlocked, below the
threshold) in the strengthened state. -/
theorem login_attempt_strict (cfg : Config) (a0 : Account) (p : Bytes)
    (now : Nat) (h0 : a0.locked_until = none)
    (hlt : a0.failed_attempts < cfg.max_attempts) (a : Account)
    (ha : (LoginSystem.login_attempt cfg (some a0) p now).account = some a) :
    StrictLockState cfg a := by
  have hmax : 0 < cfg.max_attempts := Nat.lt_of_le_of_lt (Nat.zero_le _) hlt
  obtain ⟨ph, fa, lat, lu, ll⟩ := a0
  simp only at h0 hlt
  subst h0
  simp only [LoginSystem.login_attempt] at ha
  split at ha
  · simp only [Option.some.injEq] at ha
    subst ha
    exact ⟨fun _ => hmax, fun t ht => by simp at ht⟩
  · split at ha <;> simp only [Option.some.injEq] at ha <;> subst ha
    · rename_i hge
      exact ⟨fun hn => by simp at hn,
        fun t _ => by show fa + 1 = cfg.max_attempts; omega⟩
    · rename_i hge
      exact ⟨fun _ => by show fa + 1 < cfg.max_attempts; omega,
        fun t ht => by simp at ht⟩

/-- `login` keeps any row in the strengthened state. -/
theorem login_strict (cfg : Config) (hmax : 0 < cfg.max_attempts)
    (acc : Account) (p : Bytes) (now : Nat) (hs : StrictLockState cfg acc)
    (a : Account)
    (ha : (LoginSystem.login cfg (some acc) p now).account = some a) :
    StrictLockState cfg a := by
  simp only [LoginSystem.login] at ha
  rcases hl : acc.locked_until with _ | t
  · rw [show LoginSystem.is_account_locked (some acc) now
        = ⟨false, none, some acc⟩ by
      simp [LoginSystem.is_account_locked, hl]] at ha
    exact login_attempt_strict cfg acc p now hl (hs.1 hl) a ha
  · by_cases hnow : now < t
    · rw [show LoginSystem.is_account_locked (some acc) now
          = ⟨true, some (t - now), some acc⟩ by
        simp [LoginSystem.is_account_locked, hl, hnow]] at ha
      simp only [if_pos trivial, Option.some.injEq] at ha
      subst ha
      exact hs
    · rw [show LoginSystem.is_account_locked (some acc) now
          = ⟨false, none,
             some { acc with failed_attempts := 0, locked_until := none }⟩ by
        simp [LoginSystem.is_account_locked, hl, hnow]] at ha
      exact login_attempt_strict cfg _ p now rfl (by simpa using hmax) a ha

/-- C5: with a positive `max_attempts`, every operation preserves the
account invariants: a successful `register` establishes them, and the
admission check and `login` carry them (via the strengthened state the code
maintains) from any reachable row to the row they persist. -/
theorem C5_operations_preserve_invariants (cfg : Config)
    (hmax : 0 < cfg.max_attempts) :
    (∀ existing username password salt a,
        LoginSystem.register cfg existing username password salt = .ok a →
          StrictLockState cfg a ∧ AccountInvariant cfg a) ∧
    (∀ acc now a, StrictLockState cfg acc →
        (LoginSystem.is_account_locked (some acc) now).account = some a →
          StrictLockState cfg a ∧ AccountInvariant cfg a) ∧
    (∀ acc p now a, StrictLockState cfg acc →
        (LoginSystem.login cfg (some acc) p now).account = some a →
          StrictLockState cfg a ∧ AccountInvariant cfg a) := by
  refine ⟨fun existing username password salt a ha => ?_,
    fun acc now a hs ha => ?_, fun acc p now a hs ha => ?_⟩
  · have h := register_strict cfg hmax existing username password salt a ha
    exact ⟨h, strict_imp_invariant cfg a h⟩
  · have h := lock_check_strict cfg hmax acc now hs a ha
    exact ⟨h, strict_imp_invariant cfg a h⟩
  · have h := login_strict cfg hmax acc p now hs a ha
    exact ⟨h, strict_imp_invariant cfg a h⟩

/-- A sample strong password (12 bytes, all four character classes, no
banned pattern): the bytes of `Aa1!Aa1!Aa1!`. -/
def strongPW : Bytes :=
  [65, 97, 49, 33, 65, 97, 49, 33, 65, 97, 49, 33]

/-- The row a successful sample registration persists. -/
def freshRegAcc : Account :=
  ⟨LoginSystem.hash_password sampleConfig strongPW 0, 0, none, none, none⟩

/-- Witness for C5: the row persisted by a concrete successful registration
satisfies both the strengthened state and the spec's invariants. -/
theorem C5_operations_preserve_invariants_witness :
    StrictLockState sampleConfig freshRegAcc ∧
      AccountInvariant sampleConfig freshRegAcc :=
  (C5_operations_preserve_invariants sampleConfig (by decide)).1
    none [97, 98, 99] strongPW 0 freshRegAcc rfl

/-- A sample password of length 11 containing all four character classes:
the bytes of `Aa1!aaaaaaa`. -/
def pw11 : Bytes :=
  [65, 97, 49, 33, 97, 97, 97, 97, 97, 97, 97]

/-- C9: `_validate_password_strength` returns the first failing reason in
the fixed order — length, then uppercase, lowercase, digit, special
character class, then banned patterns — succeeding only when every check
passes; in particular `register` on a valid username with a password of
length 11 containing all character classes fails with the too-short reason
when the configured minimum is 12. -/
theorem C9_first_failing_reason (cfg : Config) (password : Bytes) :
    (password.length < cfg.min_password_length →
        LoginSystem.validate_password_strength cfg password = some .tooShort) ∧
    (cfg.min_password_length ≤ password.length →
        password.any isUpperByte = false →
        LoginSystem.validate_password_strength cfg password
          = some .missingUppercase) ∧
    (cfg.min_password_length ≤ password.length →
        password.any isUpperByte = true → password.any isLowerByte = false →
        LoginSystem.validate_password_strength cfg password
          = some .missingLowercase) ∧
    (cfg.min_password_length ≤ password.length →
        password.any isUpperByte = true → password.any isLowerByte = true →
        password.any isDigitByte = false →
        LoginSystem.validate_password_strength cfg password
          = some .missingDigit) ∧
    (cfg.min_password_length ≤ password.length →
        password.any isUpperByte = true → password.any isLowerByte = true →
        password.any isDigitByte = true → password.any isSpecialByte = false →
        LoginSystem.validate_password_strength cfg password
          = some .missingSpecial) ∧
    (cfg.min_password_length ≤ password.length →
        password.any isUpperByte = true → password.any isLowerByte = true →
        password.any isDigitByte = true → password.any isSpecialByte = true →
        bannedPatterns.any
            (fun pat => hasSub pat (password.map lowerByte)) = true →
        LoginSystem.validate_password_strength cfg password
          = some .bannedPattern) ∧
    (cfg.min_password_length ≤ password.length →
        password.any isUpperByte = true → password.any isLowerByte = true →
        password.any isDigitByte = true → password.any isSpecialByte = true →
        bannedPatterns.any
            (fun pat => hasSub pat (password.map lowerByte)) = false →
        LoginSystem.validate_password_strength cfg password = none) ∧
    (∀ existing username salt,
        3 ≤ username.length →
        username.all LoginSystem.usernameByte = true →
        cfg.min_password_length = 12 → password.length = 11 →
        password.any isUpperByte = true → password.any isLowerByte = true →
        password.any isDigitByte = true → password.any isSpecialByte = true →
        LoginSystem.register cfg existing username password salt
          = .error (.weakPassword .tooShort)) := by
  refine ⟨?_, ?_, ?_, ?_, ?_, ?_, ?_, ?_⟩
  · intro h1
    simp [LoginSystem.validate_password_strength, h1]
  · intro h1 h2
    have hn : ¬ password.length < cfg.min_password_length := by omega
    simp [LoginSystem.validate_password_strength, hn, h2]
  · intro h1 h2 h3
    have hn : ¬ password.length < cfg.min_password_length := by omega
    simp [LoginSystem.validate_password_strength, hn, h2, h3]
  · intro h1 h2 h3 h4
    have hn : ¬ password.length < cfg.min_password_length := by omega
    simp [LoginSystem.validate_password_strength, hn, h2, h3, h4]
  · intro h1 h2 h3 h4 h5
    have hn : ¬ password.length < cfg.min_password_length := by omega
    simp [LoginSystem.validate_password_strength, hn, h2, h3, h4, h5]
  · intro h1 h2 h3 h4 h5 h6
    have hn : ¬ password.length < cfg.min_password_length := by omega
    simp [LoginSystem.validate_password_strength, hn, h2, h3, h4, h5, h6]
  · intro h1 h2 h3 h4 h5 h6
    have hn : ¬ password.length < cfg.min_password_length := by omega
    simp [LoginSystem.validate_password_strength, hn, h2, h3, h4, h5, h6]
  · intro existing username salt hu1 hu2 hmin hlen _ _ _ _
    have hu3 : ¬ username.length < 3 := by omega
    have hshort : password.length < cfg.min_password_length := by omega
    simp [LoginSystem.register, hu3, hu2,
      LoginSystem.validate_password_strength, hshort]

/-- Witness for C9: registering the length-11 all-classes sample password
under the source minimum of 12 fails with the too-short reason. -/
theorem C9_first_failing_reason_witness :
    LoginSystem.register sampleConfig none [97, 98, 99] pw11 0
      = .error (.weakPassword .tooShort) :=
  (C9_first_failing_reason sampleConfig pw11).2.2.2.2.2.2.2
    none [97, 98, 99] 0 (by decide) (by decide) rfl rfl
    (by decide) (by decide) (by decide) (by decide)

/-- Witness for C6 at a concrete locked account. -/
theorem C6_locked_login_unchanged_witness :
    (⟨[12, 0, 9], 3, none, some 500, none⟩ : Account).locked_until = some 500 ∧
      100 < 500 ∧
      LoginSystem.login sampleConfig (some ⟨[12, 0, 9], 3, none, some 500, none⟩) [7] 100
        = ⟨.accountLocked 400, some ⟨[12, 0, 9], 3, none, some 500, none⟩, []⟩ :=
  ⟨rfl, by decide,
    C6_locked_login_unchanged sampleConfig ⟨[12, 0, 9], 3, none, some 500, none⟩ [7]
      100 500 rfl (by decide)⟩
